import Mathlib

/-!
Verification of the rstcmalloc allocator (a tcmalloc-style heap allocator in
Rust) against its natural-language specification.

The development shallowly embeds the pure decision logic of the allocator:

* `src/size_class.rs`: the size-class table `SIZE_CLASSES`, the const-built
  lookup table `SMALL_LOOKUP`, and the functions `size_to_class` /
  `class_to_size` / `class_info`.
* `src/allocator.rs`: the dispatch decisions of `alloc`, `dealloc` and
  `realloc` (`TcMalloc::alloc`, `TcMalloc::dealloc`, `TcMalloc::realloc`,
  `TcMalloc::realloc_slow`, `TcMalloc::dealloc_slow`, `TcMalloc::alloc_large`),
  modelled as functions from the request parameters (and the page-map lookup
  result, passed in explicitly) to a constructor describing which path the
  code takes and what it returns.
* `src/thread_cache.rs`: the `ThreadCache` operations (`allocate`,
  `deallocate`, `fetch_from_central`, `release_to_central`, `scavenge`),
  modelled at the level of per-class list lengths, `max_length` thresholds
  and the `total_size` byte counter; the intrusive object chains themselves
  are abstracted to their lengths, and the central cache's reply to a refill
  request is an explicit parameter `k` (the number of objects delivered).

Machine integers (`usize`) are modelled as `Nat`; no arithmetic in the
modelled code paths can overflow or underflow on the inputs considered
(Rust `usize` subtraction panics on underflow, and every subtraction in the
modelled code is guarded by a comparison that also bounds it in `Nat`).
-/

-- =============================================================================
-- Constants (src/lib.rs)
-- =============================================================================

/-- Page shift used by the allocator (src/lib.rs: `PAGE_SHIFT = 13`). -/
def PAGE_SHIFT : Nat := 13

/-- Page size used by the allocator, 8 KiB (src/lib.rs: `PAGE_SIZE = 1 << PAGE_SHIFT`). -/
def PAGE_SIZE : Nat := 1 <<< PAGE_SHIFT

-- =============================================================================
-- Size classes (src/size_class.rs)
-- =============================================================================

/-- Information about a single size class (src/size_class.rs `SizeClassInfo`). -/
structure SizeClassInfo where
  size : Nat
  pages : Nat
  batch_size : Nat
deriving DecidableEq

/-- Number of defined size classes, index 0 is the sentinel
(src/size_class.rs `NUM_SIZE_CLASSES`). -/
def NUM_SIZE_CLASSES : Nat := 46

/-- Maximum allocation size that goes through size classes
(src/size_class.rs `MAX_SMALL_SIZE`). -/
def MAX_SMALL_SIZE : Nat := 262144

/-- The size class table (src/size_class.rs `SIZE_CLASSES`), entry `c` holding
`(size, pages, batch_size)`.  Index 0 is the sentinel. -/
def SIZE_CLASSES : List SizeClassInfo :=
  [⟨0, 0, 0⟩,
   ⟨8, 1, 32⟩, ⟨16, 1, 32⟩, ⟨24, 1, 32⟩, ⟨32, 1, 32⟩,
   ⟨40, 1, 32⟩, ⟨48, 1, 32⟩, ⟨56, 1, 32⟩, ⟨64, 1, 32⟩,
   ⟨80, 1, 32⟩, ⟨96, 1, 32⟩, ⟨112, 1, 32⟩, ⟨128, 1, 32⟩,
   ⟨160, 1, 32⟩, ⟨192, 1, 32⟩, ⟨224, 1, 32⟩, ⟨256, 1, 32⟩,
   ⟨320, 1, 16⟩, ⟨384, 1, 16⟩, ⟨448, 1, 16⟩, ⟨512, 1, 16⟩,
   ⟨640, 1, 16⟩, ⟨768, 1, 16⟩, ⟨896, 1, 16⟩, ⟨1024, 1, 16⟩,
   ⟨1280, 1, 8⟩, ⟨1536, 1, 8⟩, ⟨1792, 1, 8⟩, ⟨2048, 1, 8⟩,
   ⟨2560, 1, 4⟩, ⟨3072, 1, 4⟩, ⟨3584, 1, 4⟩, ⟨4096, 1, 4⟩,
   ⟨5120, 1, 4⟩, ⟨6144, 1, 4⟩, ⟨7168, 1, 4⟩, ⟨8192, 1, 4⟩,
   ⟨10240, 2, 2⟩, ⟨12288, 2, 2⟩, ⟨16384, 2, 2⟩, ⟨20480, 3, 2⟩,
   ⟨32768, 4, 2⟩, ⟨40960, 5, 2⟩, ⟨65536, 8, 2⟩, ⟨131072, 16, 2⟩,
   ⟨262144, 32, 2⟩]

/-- Get the size class info for a given class index (src/size_class.rs
`class_info`).  Rust indexes the static array directly (panicking out of
bounds); every use in the modelled code is in bounds, so the out-of-range
default is never observed. -/
def class_info (cls : Nat) : SizeClassInfo := SIZE_CLASSES.getD cls ⟨0, 0, 0⟩

/-- Get the allocation size for a given size class (src/size_class.rs
`class_to_size`). -/
def class_to_size (cls : Nat) : Nat := (class_info cls).size

/-- The linear scan shared by the `SMALL_LOOKUP` const builder (which scans
classes from 1) and the upper branch of `size_to_class` (which scans from 25):
starting at `cls`, return the first class index below `NUM_SIZE_CLASSES` whose
size is at least `m`, or 0 if the scan runs off the end of the table.
The `while cls < NUM_SIZE_CLASSES` loop is made structurally recursive on
`fuel = NUM_SIZE_CLASSES - cls`; see `findFit`. -/
def findFitFuel (m : Nat) : Nat → Nat → Nat
  | 0, _ => 0
  | fuel + 1, cls =>
    if m ≤ class_to_size cls then cls
    else findFitFuel m fuel (cls + 1)

/-- Scan the size-class table from index `cls` for the first class whose size
is at least `m`; 0 when no class fits. -/
def findFit (m cls : Nat) : Nat := findFitFuel m (NUM_SIZE_CLASSES - cls) cls

/-- The const-built lookup table for sizes ≤ 1024 (src/size_class.rs
`SMALL_LOOKUP`), modelled as a function of the table index: entry `i` covers
size `i * 8` (entry 0 covers size 0) and holds the smallest class whose size
is at least that, clamped to the last class if the scan finds none.  The Rust
array has 129 entries; `size_to_class` only reads indices `(size + 7) / 8`
for `size ≤ 1024`, all below 129. -/
def SMALL_LOOKUP (i : Nat) : Nat :=
  let sz := if i = 0 then 0 else i * 8
  let c := findFit sz 1
  if c = 0 then NUM_SIZE_CLASSES - 1 else c

/-- Map an allocation size to its size class index (src/size_class.rs
`size_to_class`): 1 for size 0, the sentinel 0 for sizes above
`MAX_SMALL_SIZE`, the lookup table for sizes ≤ 1024 and a linear scan of the
classes above 1024 otherwise. -/
def size_to_class (size : Nat) : Nat :=
  if size = 0 then 1
  else if MAX_SMALL_SIZE < size then 0
  else if size ≤ 1024 then SMALL_LOOKUP ((size + 7) / 8)
  else findFit size 25

-- =============================================================================
-- Top-level dispatcher (src/allocator.rs)
-- =============================================================================

/-- Modelled from the spec: the `Span` struct lives in src/span.rs, which is
not in the source tree; only the two fields that `TcMalloc::dealloc_slow` and
`TcMalloc::realloc_slow` read off a page-map hit are modelled — the span's
`size_class` (0 meaning large / free) and its page count `num_pages`
(spec §3, "Span"). -/
structure SpanInfo where
  size_class : Nat
  num_pages : Nat
deriving DecidableEq

/-- Result of the `TcMalloc::alloc` dispatch (src/allocator.rs, `alloc`):
which path the request takes and what the path returns.
`sentinel addr` is the `size == 0` early return of the alignment value cast
as a pointer, taken before any allocator state is touched; `small cls` is the
thread-cache path for size class `cls`; `large pages` is the
`TcMalloc::alloc_large` path requesting `pages` pages from the page heap. -/
inductive AllocResult where
  | sentinel (addr : Nat)
  | small (cls : Nat)
  | large (pages : Nat)
deriving DecidableEq

/-- The dispatch of `TcMalloc::alloc` (src/allocator.rs lines 77-107):
size 0 returns the align sentinel; `align ≤ 8` with a nonzero class goes to
the small path; `align > 8` recomputes the class from
`effective_size = max(size, align)` and additionally requires
`class_size % align == 0`, falling back to the large path otherwise.
The large path requests `(size + PAGE_SIZE - 1) / PAGE_SIZE` pages
(`alloc_large` receives the original layout). -/
def alloc_action (size align : Nat) : AllocResult :=
  if size = 0 then .sentinel align
  else if align ≤ 8 then
    let cls := size_to_class size
    if cls ≠ 0 then .small cls
    else .large ((size + PAGE_SIZE - 1) / PAGE_SIZE)
  else
    let effective_size := max size align
    let cls := size_to_class effective_size
    if cls ≠ 0 then
      if class_to_size cls % align ≠ 0 then .large ((size + PAGE_SIZE - 1) / PAGE_SIZE)
      else .small cls
    else .large ((size + PAGE_SIZE - 1) / PAGE_SIZE)

/-- The address returned by `TcMalloc::alloc_large` (src/allocator.rs lines
300-327) once the page heap has delivered a span: `addr` is the span's start
address (`span.start_addr()`, the address of its first page — modelled from
the spec, src/span.rs being absent: span starts are page aligned, spec §3).
The source returns `addr` in all three arms: when `align ≤ PAGE_SIZE`, when
`addr % align == 0`, and — falling through the failed alignment check —
otherwise as well. -/
def alloc_large_ret (align addr : Nat) : Nat :=
  if align ≤ PAGE_SIZE then addr
  else if addr % align = 0 then addr
  else addr

/-- Result of the `TcMalloc::dealloc` dispatch (src/allocator.rs `dealloc`
and `dealloc_slow`): `noop` covers the `size == 0` early return and the
page-map-miss early return of `dealloc_slow`, both taken before any
allocator state is modified; `small cls` hands the pointer to the thread
cache for class `cls`; `spanFree` returns the span to the page heap. -/
inductive DeallocAction where
  | noop
  | small (cls : Nat)
  | spanFree
deriving DecidableEq

/-- The dispatch of `TcMalloc::dealloc` (src/allocator.rs lines 109-129) and
`TcMalloc::dealloc_slow` (lines 243-258).  `lookup` is the page-map lookup
result for the pointer's page, consulted only on the slow path:
`align ≤ 8` with a nonzero class recomputes the class from the layout and
goes straight to the thread cache; otherwise a page-map miss returns with no
state change, a span of class 0 goes back to the page heap, and a span of a
small class goes to the thread cache. -/
def dealloc_action (size align : Nat) (lookup : Option SpanInfo) : DeallocAction :=
  if size = 0 then .noop
  else if align ≤ 8 ∧ size_to_class size ≠ 0 then .small (size_to_class size)
  else
    match lookup with
    | none => .noop
    | some span =>
      if span.size_class = 0 then .spanFree
      else .small span.size_class

/-- Result of the `TcMalloc::realloc` dispatch (src/allocator.rs `realloc`
and `realloc_slow`): `fromAlloc` is the null-pointer / zero-old-size case
that behaves as a plain `alloc(new_size, align)`; `freeSentinel addr` is the
`new_size == 0` case that deallocates and returns the align sentinel;
`inPlace` returns the original pointer unchanged; `allocCopyFree copy`
allocates a new block, copies `copy = min(old_size, new_size)` bytes into it
on success and frees the old block. -/
inductive ReallocResult where
  | fromAlloc (size align : Nat)
  | freeSentinel (addr : Nat)
  | inPlace
  | allocCopyFree (copy : Nat)
deriving DecidableEq

/-- The dispatch of `TcMalloc::realloc` (src/allocator.rs lines 139-179) and
`TcMalloc::realloc_slow` (lines 261-298).  `lookup` is the page-map lookup
for the pointer's page, consulted only on the slow path.  The fast path
(`align ≤ 8`, old class nonzero) stays in place when the new size still fits
the old class's size or maps to the same class; the slow path reads the
span's class: a small-class span stays in place when the effective new size
`max(new_size, align)` maps to the span's class or fits its size, a class-0
(large) span stays in place when `new_size` fits its pages, and a page-map
miss falls through to allocate-copy-free. -/
def realloc_action (ptrNull : Bool) (old_size align new_size : Nat)
    (lookup : Option SpanInfo) : ReallocResult :=
  if ptrNull ∨ old_size = 0 then .fromAlloc new_size align
  else if new_size = 0 then .freeSentinel align
  else if align ≤ 8 ∧ size_to_class old_size ≠ 0 then
    let old_class := size_to_class old_size
    let current_size := class_to_size old_class
    if new_size ≤ current_size then .inPlace
    else if size_to_class new_size = old_class then .inPlace
    else .allocCopyFree (min old_size new_size)
  else
    match lookup with
    | some span =>
      if span.size_class ≠ 0 then
        let current_size := class_to_size span.size_class
        let effective_new := max new_size align
        if size_to_class effective_new = span.size_class then .inPlace
        else if new_size ≤ current_size then .inPlace
        else .allocCopyFree (min old_size new_size)
      else
        let span_bytes := span.num_pages * PAGE_SIZE
        if new_size ≤ span_bytes then .inPlace
        else .allocCopyFree (min old_size new_size)
    | none => .allocCopyFree (min old_size new_size)

-- =============================================================================
-- Thread cache (src/thread_cache.rs)
-- =============================================================================

/-- Maximum total bytes a thread cache can hold before triggering GC
(src/thread_cache.rs `MAX_THREAD_CACHE_SIZE`, 4 MiB). -/
def MAX_THREAD_CACHE_SIZE : Nat := 4 * 1024 * 1024

/-- Per-size-class free list within the thread cache (src/thread_cache.rs
`FreeList`), abstracted to its two counters: the intrusive chain is replaced
by its length, which the source keeps in sync with the chain by
construction (`push`/`pop`/`push_batch`/`pop_batch` update `length`
alongside the links). -/
structure FreeList where
  length : Nat
  max_length : Nat
deriving DecidableEq

/-- Per-thread cache holding free lists for each size class
(src/thread_cache.rs `ThreadCache`): the per-class lists (as a function of
the class index; the source uses an array of `NUM_SIZE_CLASSES` entries and
only ever indexes it with a valid class), the total cached bytes, and the
per-thread cap (`MAX_THREAD_CACHE_SIZE` on construction). -/
structure ThreadCache where
  lists : Nat → FreeList
  total_size : Nat
  max_size : Nat

/-- The number of objects `FreeList::pop_batch(count)` actually pops: the
source loop stops at `count` objects or at the end of the chain, whichever
comes first. -/
def pop_batch_count (l : FreeList) (count : Nat) : Nat := min count l.length

/-- `ThreadCache::fetch_from_central` (src/thread_cache.rs lines 161-202),
with the upstream reply abstracted: `k` is the object count the central free
list's `remove_range(batch_size, ...)` returns (`0 ≤ k ≤ batch_size`).
When `k = 0` the fetch returns null with the cache unchanged; otherwise the
first object is the result (`true`), the remaining `k - 1` are pushed onto
the class list (adding `(k-1) * size` bytes), and `max_length` is raised to
`k` if below it. -/
def ThreadCache.fetch_from_central (tc : ThreadCache) (cls k : Nat) : Bool × ThreadCache :=
  if k = 0 then (false, tc)
  else
    let info := class_info cls
    let remaining_count := k - 1
    let tc1 :=
      if remaining_count > 0 then
        { tc with
          lists := Function.update tc.lists cls
            { tc.lists cls with length := (tc.lists cls).length + remaining_count },
          total_size := tc.total_size + remaining_count * info.size }
      else tc
    let l1 := tc1.lists cls
    let tc2 :=
      if l1.max_length < k then
        { tc1 with lists := Function.update tc1.lists cls { l1 with max_length := k } }
      else tc1
    (true, tc2)

/-- `ThreadCache::allocate` (src/thread_cache.rs lines 113-130): pop from the
class list when it is non-empty (subtracting the class size from
`total_size`), else fall through to `fetch_from_central`.  The returned
`Bool` is whether the result pointer is non-null. -/
def ThreadCache.allocate (tc : ThreadCache) (cls k : Nat) : Bool × ThreadCache :=
  let l := tc.lists cls
  if l.length > 0 then
    (true,
     { tc with
       lists := Function.update tc.lists cls { l with length := l.length - 1 },
       total_size := tc.total_size - class_to_size cls })
  else tc.fetch_from_central cls k

/-- `ThreadCache::release_to_central` (src/thread_cache.rs lines 205-233):
pop half of the class list (`length / 2` objects), subtract their bytes from
`total_size`, hand them to the central cache (abstracted away), and set
`max_length` to the maximum of itself and the new length. -/
def ThreadCache.release_to_central (tc : ThreadCache) (cls : Nat) : ThreadCache :=
  let l := tc.lists cls
  let to_release := l.length / 2
  if to_release = 0 then tc
  else
    let count := pop_batch_count l to_release
    let newLength := l.length - count
    { tc with
      lists := Function.update tc.lists cls
        { length := newLength, max_length := max l.max_length newLength },
      total_size := tc.total_size - count * (class_info cls).size }

/-- One iteration of the `ThreadCache::scavenge` sweep (src/thread_cache.rs
lines 245-270) for class `cls`: skip once the total is at or below the
target `max_size / 2` (the source breaks out of the loop, which coincides
with skipping every remaining class since the total never increases), skip
empty lists and lists of length 1 (`to_release == 0`), otherwise pop half
the list and subtract the released bytes. -/
def ThreadCache.scavenge_step (tc : ThreadCache) (cls : Nat) : ThreadCache :=
  if tc.total_size ≤ tc.max_size / 2 then tc
  else
    let l := tc.lists cls
    if l.length = 0 then tc
    else
      let to_release := l.length / 2
      if to_release = 0 then tc
      else
        let count := pop_batch_count l to_release
        { tc with
          lists := Function.update tc.lists cls { l with length := l.length - count },
          total_size := tc.total_size - count * (class_info cls).size }

/-- `ThreadCache::scavenge` (src/thread_cache.rs lines 236-271): sweep
classes `1 .. NUM_SIZE_CLASSES - 1` in order. -/
def ThreadCache.scavenge (tc : ThreadCache) : ThreadCache :=
  (List.range' 1 (NUM_SIZE_CLASSES - 1)).foldl ThreadCache.scavenge_step tc

/-- `ThreadCache::deallocate` (src/thread_cache.rs lines 134-158) up to but
not including the final scavenge check: push the object (adding the class
size to `total_size`), then release half the list to central if its length
now exceeds `max_length`. -/
def ThreadCache.deallocate_inner (tc : ThreadCache) (cls : Nat) : ThreadCache :=
  let l := tc.lists cls
  let tc1 :=
    { tc with
      lists := Function.update tc.lists cls { l with length := l.length + 1 },
      total_size := tc.total_size + class_to_size cls }
  let l1 := tc1.lists cls
  if l1.length > l1.max_length then tc1.release_to_central cls else tc1

/-- `ThreadCache::deallocate` (src/thread_cache.rs lines 134-158): the push
and overflow release of `deallocate_inner`, followed by a scavenge when the
total now exceeds `max_size`. -/
def ThreadCache.deallocate (tc : ThreadCache) (cls : Nat) : ThreadCache :=
  let tc2 := tc.deallocate_inner cls
  if tc2.total_size > tc2.max_size then tc2.scavenge else tc2

/-- The thread cache's byte-accounting invariant: `total_size` equals the sum
over the size classes `1 .. 45` of list length times object size. -/
def ThreadCache.sizeInv (tc : ThreadCache) : Prop :=
  tc.total_size = ∑ c ∈ Finset.Icc 1 45, (tc.lists c).length * class_to_size c

/-- `ThreadCache::new` (src/thread_cache.rs lines 103-109): every list empty
with `max_length` 1, no cached bytes, cap `MAX_THREAD_CACHE_SIZE`. -/
def ThreadCache.new : ThreadCache :=
  { lists := fun _ => ⟨0, 1⟩,
    total_size := 0,
    max_size := MAX_THREAD_CACHE_SIZE }

/-- A thread-cache state holding sixteen 262144-byte objects (class 45), with
`total_size` exactly at the 4 MiB cap: one more class-45 deallocation pushes
the counter over `max_size`, and halving every list cannot get back down to
`max_size / 2`. -/
def scavengeShortfallState : ThreadCache :=
  { lists := fun c => if c = 45 then ⟨16, 32⟩ else ⟨0, 1⟩,
    total_size := 16 * 262144,
    max_size := MAX_THREAD_CACHE_SIZE }

-- =============================================================================
-- Size-class lemmas
-- =============================================================================

/-- Every class size in the table is a multiple of 8. -/
theorem class_sizes_mod8 : ∀ c, c < 46 → 1 ≤ c → class_to_size c % 8 = 0 := by decide

/-- Consecutive class sizes strictly increase. -/
theorem class_sizes_step : ∀ c, c < 45 → 1 ≤ c → class_to_size c < class_to_size (c + 1) := by
  decide

/-- Classes below 25 have sizes at most 1024. -/
theorem class_sizes_low : ∀ c, c < 25 → 1 ≤ c → class_to_size c ≤ 1024 := by decide

/-- The last class has size `MAX_SMALL_SIZE`. -/
theorem class_to_size_45 : class_to_size 45 = 262144 := by decide

/-- `class_to_size` is monotone on classes `1 .. 45`. -/
theorem class_to_size_mono (c : Nat) (h1 : 1 ≤ c) :
    ∀ j, c ≤ j → j ≤ 45 → class_to_size c ≤ class_to_size j := by
  intro j
  induction j with
  | zero => intro h2 _; omega
  | succ n ih =>
    intro h2 h3
    by_cases hc : c = n + 1
    · subst hc; exact Nat.le_refl _
    · have hcn : c ≤ n := by omega
      have hmono := ih hcn (by omega)
      have hstep := class_sizes_step n (by omega) (by omega)
      omega

/-- `class_to_size` is strictly monotone on classes `1 .. 45`. -/
theorem class_to_size_strict_mono (c j : Nat) (h1 : 1 ≤ c) (h2 : c < j) (h3 : j ≤ 45) :
    class_to_size c < class_to_size j := by
  have hstep := class_sizes_step c (by omega) (by omega)
  have hmono := class_to_size_mono (c + 1) (by omega) j (by omega) h3
  omega

/-- For a multiple of 8, being at least `s` is the same as being at least
`s` rounded up to a multiple of 8. -/
theorem ge_iff_ge_ceil8 (s sz : Nat) (hmod : sz % 8 = 0) :
    s ≤ sz ↔ 8 * ((s + 7) / 8) ≤ sz := by omega

/-- Specification of the table scan `findFitFuel` when the fuel matches the
remaining classes: a nonzero result is a class in `[cls, 46)` whose size is
at least `m` and is the first such; a zero result means no class from `cls`
on fits. -/
theorem findFitFuel_spec (m : Nat) :
    ∀ fuel cls, fuel + cls = NUM_SIZE_CLASSES → 1 ≤ cls →
      (findFitFuel m fuel cls ≠ 0 →
        cls ≤ findFitFuel m fuel cls ∧ findFitFuel m fuel cls < 46 ∧
        m ≤ class_to_size (findFitFuel m fuel cls) ∧
        ∀ j, cls ≤ j → j < findFitFuel m fuel cls → class_to_size j < m) ∧
      (findFitFuel m fuel cls = 0 →
        ∀ j, cls ≤ j → j < 46 → class_to_size j < m) := by
  intro fuel
  induction fuel with
  | zero =>
    intro cls h _
    have h46 : NUM_SIZE_CLASSES = 46 := rfl
    refine ⟨fun hne => absurd rfl hne, fun _ j hj1 hj2 => by omega⟩
  | succ n ih =>
    intro cls h hcls
    have h46 : NUM_SIZE_CLASSES = 46 := rfl
    simp only [findFitFuel]
    by_cases hfit : m ≤ class_to_size cls
    · rw [if_pos hfit]
      refine ⟨fun _ => ⟨Nat.le_refl _, by omega, hfit, fun j hj1 hj2 => by omega⟩,
              fun h0 => ?_⟩
      omega
    · rw [if_neg hfit]
      have hrec := ih (cls + 1) (by omega) (by omega)
      refine ⟨fun hne => ?_, fun h0 j hj1 hj2 => ?_⟩
      · obtain ⟨ha, hb, hc, hd⟩ := hrec.1 hne
        refine ⟨by omega, hb, hc, fun j hj1 hj2 => ?_⟩
        by_cases hje : j = cls
        · subst hje; omega
        · exact hd j (by omega) hj2
      · by_cases hje : j = cls
        · subst hje; omega
        · exact hrec.2 h0 j (by omega) hj2

/-- Specification of `findFit` for a scan starting inside the table. -/
theorem findFit_spec (m cls : Nat) (hcls0 : 1 ≤ cls) (hcls : cls ≤ 46) :
    (findFit m cls ≠ 0 →
      cls ≤ findFit m cls ∧ findFit m cls < 46 ∧
      m ≤ class_to_size (findFit m cls) ∧
      ∀ j, cls ≤ j → j < findFit m cls → class_to_size j < m) ∧
    (findFit m cls = 0 → ∀ j, cls ≤ j → j < 46 → class_to_size j < m) := by
  have h46 : NUM_SIZE_CLASSES = 46 := rfl
  exact findFitFuel_spec m (NUM_SIZE_CLASSES - cls) cls (by omega) hcls0

/-- The scan succeeds whenever the request is at most `MAX_SMALL_SIZE` and
the scan starts at or before the last class. -/
theorem findFit_complete (m cls : Nat) (h1 : m ≤ 262144) (h0' : 1 ≤ cls) (h2 : cls ≤ 45) :
    findFit m cls ≠ 0 := by
  intro h0
  have := (findFit_spec m cls h0' (by omega)).2 h0 45 (by omega) (by omega)
  rw [class_to_size_45] at this
  omega

/-- On the indices `size_to_class` actually reads, `SMALL_LOOKUP` is the
table scan from class 1, and that scan succeeds. -/
theorem SMALL_LOOKUP_eq (i : Nat) (h1 : 1 ≤ i) (h2 : i * 8 ≤ 262144) :
    SMALL_LOOKUP i = findFit (i * 8) 1 ∧ findFit (i * 8) 1 ≠ 0 := by
  have hne := findFit_complete (i * 8) 1 h2 (by omega) (by omega)
  constructor
  · unfold SMALL_LOOKUP
    rw [if_neg (by omega : ¬ i = 0), if_neg hne]
  · exact hne

/-- Characterization of `size_to_class` on the small range: it returns a
class in `[1, 45]` whose size covers the request, and no smaller class
index has a size covering the request. -/
theorem size_to_class_spec (s : Nat) (h1 : 1 ≤ s) (hmax : s ≤ MAX_SMALL_SIZE) :
    1 ≤ size_to_class s ∧ size_to_class s ≤ 45 ∧
    s ≤ class_to_size (size_to_class s) ∧
    ∀ j, 1 ≤ j → j ≤ 45 → s ≤ class_to_size j → size_to_class s ≤ j := by
  have hM : MAX_SMALL_SIZE = 262144 := rfl
  rw [hM] at hmax
  have hstc : size_to_class s =
      if s ≤ 1024 then SMALL_LOOKUP ((s + 7) / 8) else findFit s 25 := by
    unfold size_to_class
    rw [if_neg (by omega : ¬ s = 0), if_neg (by rw [hM]; omega)]
  by_cases hsmall : s ≤ 1024
  · rw [if_pos hsmall] at hstc
    set i := (s + 7) / 8 with hi
    have hi1 : 1 ≤ i := by omega
    have hi8 : i * 8 ≤ 262144 := by omega
    obtain ⟨heq, hne⟩ := SMALL_LOOKUP_eq i hi1 hi8
    rw [heq] at hstc
    obtain ⟨ha, hb, hc, hd⟩ := (findFit_spec (i * 8) 1 (by omega) (by omega)).1 hne
    rw [hstc]
    refine ⟨ha, by omega, by omega, fun j hj1 hj45 hjs => ?_⟩
    by_contra hlt
    have hjlt : j < findFit (i * 8) 1 := by omega
    have hjmod := class_sizes_mod8 j (by omega) hj1
    have hjm : i * 8 ≤ class_to_size j := by
      have := (ge_iff_ge_ceil8 s (class_to_size j) hjmod).1 hjs
      omega
    have := hd j hj1 hjlt
    omega
  · rw [if_neg hsmall] at hstc
    have hne := findFit_complete s 25 (by omega) (by omega) (by omega)
    obtain ⟨ha, hb, hc, hd⟩ := (findFit_spec s 25 (by omega) (by omega)).1 hne
    rw [hstc]
    refine ⟨by omega, by omega, hc, fun j hj1 hj45 hjs => ?_⟩
    by_contra hlt
    have hj25 : 25 ≤ j := by
      by_contra hj24
      have := class_sizes_low j (by omega) hj1
      omega
    have := hd j hj25 (by omega)
    omega

/-- `size_to_class` is zero exactly on sizes above `MAX_SMALL_SIZE`. -/
theorem size_to_class_eq_zero_iff (s : Nat) :
    size_to_class s = 0 ↔ MAX_SMALL_SIZE < s := by
  constructor
  · intro h0
    by_contra hle
    by_cases hs0 : s = 0
    · subst hs0; simp [size_to_class] at h0
    · have := (size_to_class_spec s (by omega) (by omega)).1
      omega
  · intro h
    unfold size_to_class
    rw [if_neg (by have : MAX_SMALL_SIZE = 262144 := rfl; omega), if_pos h]

-- =============================================================================
-- Realloc path lemmas
-- =============================================================================

/-- On the fast path (`align ≤ 8`, old size in a class), `realloc` stays in
place exactly when the new size fits the old class's size or maps to the
same class, and otherwise allocates, copies `min(old, new)` bytes and frees. -/
theorem realloc_action_fast (old_size align new_size : Nat) (lookup : Option SpanInfo)
    (h1 : 1 ≤ old_size) (h2 : 1 ≤ new_size) (h3 : align ≤ 8)
    (h4 : size_to_class old_size ≠ 0) :
    realloc_action false old_size align new_size lookup =
      if new_size ≤ class_to_size (size_to_class old_size) then .inPlace
      else if size_to_class new_size = size_to_class old_size then .inPlace
      else .allocCopyFree (min old_size new_size) := by
  unfold realloc_action
  rw [if_neg (by simp; omega), if_neg (by omega), if_pos ⟨h3, h4⟩]

/-- On the slow path with a page-map hit on a small-class span, `realloc`
stays in place exactly when the effective new size maps to the span's class
or the new size fits the span's class size. -/
theorem realloc_action_slow_small (old_size align new_size : Nat) (span : SpanInfo)
    (h1 : 1 ≤ old_size) (h2 : 1 ≤ new_size)
    (hslow : ¬(align ≤ 8 ∧ size_to_class old_size ≠ 0)) (hsc : span.size_class ≠ 0) :
    realloc_action false old_size align new_size (some span) =
      if size_to_class (max new_size align) = span.size_class then .inPlace
      else if new_size ≤ class_to_size span.size_class then .inPlace
      else .allocCopyFree (min old_size new_size) := by
  unfold realloc_action
  rw [if_neg (by simp; omega), if_neg (by omega), if_neg hslow]
  simp only [if_pos hsc]

/-- On the slow path with a page-map hit on a class-0 (large) span, `realloc`
stays in place exactly when the new size fits the span's pages. -/
theorem realloc_action_slow_large (old_size align new_size : Nat) (span : SpanInfo)
    (h1 : 1 ≤ old_size) (h2 : 1 ≤ new_size)
    (hslow : ¬(align ≤ 8 ∧ size_to_class old_size ≠ 0)) (hsc : span.size_class = 0) :
    realloc_action false old_size align new_size (some span) =
      if new_size ≤ span.num_pages * PAGE_SIZE then .inPlace
      else .allocCopyFree (min old_size new_size) := by
  unfold realloc_action
  rw [if_neg (by simp; omega), if_neg (by omega), if_neg hslow]
  simp only [hsc, if_neg (by simp : ¬ (0 : Nat) ≠ 0)]

/-- On the slow path with a page-map miss, `realloc` falls through to
allocate-copy-free. -/
theorem realloc_action_slow_miss (old_size align new_size : Nat)
    (h1 : 1 ≤ old_size) (h2 : 1 ≤ new_size)
    (hslow : ¬(align ≤ 8 ∧ size_to_class old_size ≠ 0)) :
    realloc_action false old_size align new_size none =
      .allocCopyFree (min old_size new_size) := by
  unfold realloc_action
  rw [if_neg (by simp; omega), if_neg (by omega), if_neg hslow]

/-- For `align ≤ 8`, taking the effective size `max(new_size, align)` does not
change the size class: below `align` both sizes land in class 1. -/
theorem size_to_class_max_align (align new_size : Nat) (h : align ≤ 8) (h2 : 1 ≤ new_size) :
    size_to_class (max new_size align) = size_to_class new_size := by
  by_cases hna : align ≤ new_size
  · rw [Nat.max_eq_left hna]
  · rw [Nat.max_eq_right (by omega : new_size ≤ align)]
    have hone : ∀ a, 1 ≤ a → a ≤ 8 → size_to_class a = 1 := by decide
    rw [hone align (by omega) h, hone new_size h2 (by omega)]

-- =============================================================================
-- Claims C2, C9, C3
-- =============================================================================

/-- C2: for every size `s` with `1 ≤ s ≤ MAX_SMALL_SIZE` (262144),
`size_to_class s` is a non-zero class whose size is at least `s`, and its
size is minimal among the classes `1..=45` whose size is at least `s`; for
`s > MAX_SMALL_SIZE`, `size_to_class s = 0`. -/
theorem C2_size_to_class_minimal :
    (∀ s, 1 ≤ s → s ≤ MAX_SMALL_SIZE →
      size_to_class s ≠ 0 ∧
      s ≤ class_to_size (size_to_class s) ∧
      ∀ c, 1 ≤ c → c ≤ 45 → s ≤ class_to_size c →
        class_to_size (size_to_class s) ≤ class_to_size c) ∧
    (∀ s, MAX_SMALL_SIZE < s → size_to_class s = 0) := by
  constructor
  · intro s h1 h2
    obtain ⟨ha, hb, hc, hd⟩ := size_to_class_spec s h1 h2
    refine ⟨by omega, hc, fun c hc1 hc45 hcs => ?_⟩
    exact class_to_size_mono _ ha c (hd c hc1 hc45 hcs) hc45
  · intro s h
    exact (size_to_class_eq_zero_iff s).2 h

/-- Witness for C2 at `s = 100` (class 11 covers 100) and `s = 262145`. -/
theorem C2_size_to_class_minimal_witness :
    size_to_class 100 ≠ 0 ∧ 100 ≤ class_to_size (size_to_class 100) ∧
    class_to_size (size_to_class 100) ≤ class_to_size 11 ∧
    size_to_class 262145 = 0 :=
  ⟨(C2_size_to_class_minimal.1 100 (by decide) (by decide)).1,
   (C2_size_to_class_minimal.1 100 (by decide) (by decide)).2.1,
   (C2_size_to_class_minimal.1 100 (by decide) (by decide)).2.2 11
     (by decide) (by decide) (by decide),
   C2_size_to_class_minimal.2 262145 (by decide)⟩

/-- C9 counterexample: `size_to_class` is not non-decreasing over its whole
argument range — it drops from 45 at `MAX_SMALL_SIZE` to the sentinel 0 just
above it. -/
theorem C9_counterexample :
    ¬ (∀ s t : Nat, s ≤ t → size_to_class s ≤ size_to_class t) := by
  intro h
  have hle := h 262144 262145 (by omega)
  have h1 : size_to_class 262144 = 45 := by decide
  have h2 : size_to_class 262145 = 0 := by decide
  omega

/-- C9 amended: `size_to_class` is non-decreasing on sizes up to
`MAX_SMALL_SIZE` (beyond which it drops to the sentinel 0); `class_to_size`
is strictly increasing over classes `1..=45`; and every class size is a
multiple of 8. -/
theorem C9_monotone_amended :
    (∀ s t, s ≤ t → t ≤ MAX_SMALL_SIZE → size_to_class s ≤ size_to_class t) ∧
    (∀ c d, 1 ≤ c → c < d → d ≤ 45 → class_to_size c < class_to_size d) ∧
    (∀ c, 1 ≤ c → c ≤ 45 → class_to_size c % 8 = 0) := by
  refine ⟨?_, ?_, ?_⟩
  · intro s t hst ht
    by_cases hs0 : s = 0
    · subst hs0
      have h0 : size_to_class 0 = 1 := by decide
      by_cases ht0 : t = 0
      · subst ht0; omega
      · have := (size_to_class_spec t (by omega) ht).1
        omega
    · have hs := size_to_class_spec s (by omega) (by omega)
      have ht' := size_to_class_spec t (by omega) ht
      exact hs.2.2.2 (size_to_class t) ht'.1 ht'.2.1 (le_trans hst ht'.2.2.1)
  · intro c d h1 h2 h3
    exact class_to_size_strict_mono c d h1 h2 h3
  · intro c h1 h2
    exact class_sizes_mod8 c (by omega) h1

/-- Witness for C9 amended at `(s, t) = (100, 200)`, classes 3 < 4, class 7. -/
theorem C9_monotone_amended_witness :
    size_to_class 100 ≤ size_to_class 200 ∧
    class_to_size 3 < class_to_size 4 ∧ class_to_size 7 % 8 = 0 :=
  ⟨C9_monotone_amended.1 100 200 (by decide) (by decide),
   C9_monotone_amended.2.1 3 4 (by decide) (by decide) (by decide),
   C9_monotone_amended.2.2 7 (by decide) (by decide)⟩

/-- C3 counterexample: 24 and 32 are in different size classes (3 and 4), so
`realloc(p, 24, 8, 32)` does not return `p`: the dispatch reaches the
allocate-copy-free branch, which returns a freshly allocated pointer (alias-
free from the still-live `p`) rather than `p` itself. -/
theorem C3_counterexample :
    alloc_action 24 8 = AllocResult.small 3 ∧
    size_to_class 24 = 3 ∧ size_to_class 32 = 4 ∧
    realloc_action false 24 8 32 none = ReallocResult.allocCopyFree 24 ∧
    realloc_action false 24 8 32 none ≠ ReallocResult.inPlace := by decide

/-- C3 amended: after `p = alloc(24, 8)` (class 3, size 24),
`realloc(p, 24, 8, new_size)` returns `p` in place exactly when
`new_size ≤ 24`; in particular `new_size = 32` (class 4) allocates a new
block, copies 24 bytes and frees `p`, so `q ≠ p`. -/
theorem C3_realloc_in_place_amended (new_size : Nat) (h : 1 ≤ new_size) :
    realloc_action false 24 8 new_size none = ReallocResult.inPlace ↔
      new_size ≤ 24 := by
  have h24 : size_to_class 24 = 3 := by decide
  have hcs : class_to_size 3 = 24 := by decide
  rw [realloc_action_fast 24 8 new_size none (by omega) h (by omega)
      (by rw [h24]; omega)]
  rw [h24, hcs]
  constructor
  · intro hip
    by_contra hgt
    have hne3 : size_to_class new_size ≠ 3 := by
      intro he
      by_cases hbig : MAX_SMALL_SIZE < new_size
      · rw [(size_to_class_eq_zero_iff _).2 hbig] at he
        omega
      · have hcov := (size_to_class_spec new_size (by omega) (by omega)).2.2.1
        rw [he, hcs] at hcov
        omega
    rw [if_neg (by omega), if_neg hne3] at hip
    exact absurd hip (by simp)
  · intro hle
    rw [if_pos hle]

/-- Witness for C3 amended at `new_size = 24` and (via the counterexample
direction) `new_size = 20`. -/
theorem C3_realloc_in_place_amended_witness :
    realloc_action false 24 8 20 none = ReallocResult.inPlace :=
  (C3_realloc_in_place_amended 20 (by decide)).2 (by decide)

-- =============================================================================
-- Claims C4, C7, C8, C1
-- =============================================================================

/-- C4: for `realloc` with a non-null pointer, positive old size and positive
new size — on the fast path (`align ≤ 8`, old size in a class) the pointer is
returned unchanged exactly when the new size fits the old class's size or the
effective new size maps to the old class; on the slow path, a small-class
span stays in place exactly when the new size fits the span's class size or
the effective new size `max(new_size, align)` maps to the span's class, and a
class-0 (large) span stays in place exactly when
`new_size ≤ num_pages * PAGE_SIZE`; in every other case `realloc` allocates a
new block, copies `min(old_size, new_size)` bytes and frees the old block. -/
theorem C4_realloc_dispatch (old_size align new_size : Nat) (lookup : Option SpanInfo)
    (h1 : 1 ≤ old_size) (h2 : 1 ≤ new_size) :
    (align ≤ 8 → size_to_class old_size ≠ 0 →
      (realloc_action false old_size align new_size lookup = ReallocResult.inPlace ↔
        (new_size ≤ class_to_size (size_to_class old_size) ∨
         size_to_class (max new_size align) = size_to_class old_size))) ∧
    (∀ span, ¬(align ≤ 8 ∧ size_to_class old_size ≠ 0) → span.size_class ≠ 0 →
      (realloc_action false old_size align new_size (some span) = ReallocResult.inPlace ↔
        (new_size ≤ class_to_size span.size_class ∨
         size_to_class (max new_size align) = span.size_class))) ∧
    (∀ span, ¬(align ≤ 8 ∧ size_to_class old_size ≠ 0) → span.size_class = 0 →
      (realloc_action false old_size align new_size (some span) = ReallocResult.inPlace ↔
        new_size ≤ span.num_pages * PAGE_SIZE)) ∧
    (realloc_action false old_size align new_size lookup ≠ ReallocResult.inPlace →
      realloc_action false old_size align new_size lookup =
        ReallocResult.allocCopyFree (min old_size new_size)) := by
  refine ⟨?_, ?_, ?_, ?_⟩
  · intro h3 h4
    rw [realloc_action_fast old_size align new_size lookup h1 h2 h3 h4,
        size_to_class_max_align align new_size h3 h2]
    by_cases ha : new_size ≤ class_to_size (size_to_class old_size)
    · simp [ha]
    · by_cases hb : size_to_class new_size = size_to_class old_size
      · simp [ha, hb]
      · simp [ha, hb]
  · intro span hslow hsc
    rw [realloc_action_slow_small old_size align new_size span h1 h2 hslow hsc]
    by_cases hc : size_to_class (max new_size align) = span.size_class
    · simp [hc]
    · by_cases hd : new_size ≤ class_to_size span.size_class
      · simp [hc, hd]
      · simp [hc, hd]
  · intro span hslow hsc
    rw [realloc_action_slow_large old_size align new_size span h1 h2 hslow hsc]
    by_cases hb : new_size ≤ span.num_pages * PAGE_SIZE
    · simp [hb]
    · simp [hb]
  · intro hni
    by_cases hfast : align ≤ 8 ∧ size_to_class old_size ≠ 0
    · rw [realloc_action_fast old_size align new_size lookup h1 h2 hfast.1 hfast.2]
        at hni ⊢
      by_cases ha : new_size ≤ class_to_size (size_to_class old_size)
      · simp [ha] at hni
      · by_cases hb : size_to_class new_size = size_to_class old_size
        · simp [ha, hb] at hni
        · simp [ha, hb]
    · rcases lookup with _ | span
      · exact realloc_action_slow_miss old_size align new_size h1 h2 hfast
      · by_cases hsc : span.size_class = 0
        · rw [realloc_action_slow_large old_size align new_size span h1 h2 hfast hsc]
            at hni ⊢
          by_cases hb : new_size ≤ span.num_pages * PAGE_SIZE
          · simp [hb] at hni
          · simp [hb]
        · rw [realloc_action_slow_small old_size align new_size span h1 h2 hfast hsc]
            at hni ⊢
          by_cases hc : size_to_class (max new_size align) = span.size_class
          · simp [hc] at hni
          · by_cases hd : new_size ≤ class_to_size span.size_class
            · simp [hc, hd] at hni
            · simp [hc, hd]

/-- Witness for C4: growing a class-3 allocation (24 bytes) to 100 bytes
takes the allocate-copy-free path, copying 24 bytes. -/
theorem C4_realloc_dispatch_witness :
    realloc_action false 24 8 100 none = ReallocResult.allocCopyFree 24 :=
  (C4_realloc_dispatch 24 8 100 none (by decide) (by decide)).2.2.2 (by decide)

/-- C7: a `dealloc` that takes the slow path (size not in a small class, or
`align > 8`) returns with no state modification when the page-map lookup for
the pointer's page misses: the dispatch lands on `noop`, the early return at
the top of `dealloc_slow`, which precedes every state-modifying statement. -/
theorem C7_dealloc_pagemap_miss_noop (size align : Nat)
    (h1 : 1 ≤ size) (hslow : ¬(align ≤ 8 ∧ size_to_class size ≠ 0)) :
    dealloc_action size align none = DeallocAction.noop := by
  unfold dealloc_action
  rw [if_neg (by omega), if_neg hslow]

/-- Witness for C7: freeing an 8-byte, 16-aligned allocation whose page the
page map does not know is a no-op. -/
theorem C7_dealloc_pagemap_miss_noop_witness :
    dealloc_action 8 16 none = DeallocAction.noop :=
  C7_dealloc_pagemap_miss_noop 8 16 (by decide) (by decide)

/-- C8: for every power-of-two `align`, `alloc(0, align)` returns the
alignment value as a sentinel pointer — non-null and trivially
`align`-aligned — on the path that precedes every state access; and
`realloc(ptr, layout, 0)` with positive old size deallocates `ptr` and
returns the same sentinel. -/
theorem C8_zero_size_sentinel (align : Nat) (hpow : ∃ k, align = 2 ^ k) :
    alloc_action 0 align = AllocResult.sentinel align ∧
    align ≠ 0 ∧ align % align = 0 ∧
    (∀ old_size lookup, 1 ≤ old_size →
      realloc_action false old_size align 0 lookup = ReallocResult.freeSentinel align) := by
  obtain ⟨k, hk⟩ := hpow
  have hpos : 0 < align := by rw [hk]; exact Nat.two_pow_pos k
  refine ⟨?_, by omega, Nat.mod_self align, ?_⟩
  · unfold alloc_action
    rw [if_pos rfl]
  · intro old_size lookup h1
    unfold realloc_action
    rw [if_neg (by simp; omega), if_pos rfl]

/-- Witness for C8 at `align = 16` and an old 24-byte allocation. -/
theorem C8_zero_size_sentinel_witness :
    alloc_action 0 16 = AllocResult.sentinel 16 ∧ 16 % 16 = 0 ∧
    realloc_action false 24 16 0 none = ReallocResult.freeSentinel 16 :=
  ⟨(C8_zero_size_sentinel 16 ⟨4, by decide⟩).1,
   (C8_zero_size_sentinel 16 ⟨4, by decide⟩).2.2.1,
   (C8_zero_size_sentinel 16 ⟨4, by decide⟩).2.2.2 24 none (by decide)⟩

/-- C1 (bug evidence): the alignment postcondition fails on the
large-allocation path for `align > PAGE_SIZE`.  `alloc(300000, 16384)`
dispatches to the large path (37 pages); when the page heap hands back a
span starting at page 1 — a perfectly page-aligned span — `alloc_large`
returns its start address 8192 unchanged, even though `8192 % 16384 ≠ 0`:
the `addr % align == 0` check at src/allocator.rs line 322 falls through to
return the very same `addr`. -/
theorem C1_alloc_large_misaligned :
    alloc_action 300000 16384 = AllocResult.large 37 ∧
    8192 % PAGE_SIZE = 0 ∧
    alloc_large_ret 16384 8192 = 8192 ∧
    8192 % 16384 ≠ 0 := by decide

-- =============================================================================
-- Thread-cache operation lemmas
-- =============================================================================

/-- A refill returns null exactly when the central cache delivered zero
objects. -/
theorem fetch_from_central_false_iff (tc : ThreadCache) (cls k : Nat) :
    (tc.fetch_from_central cls k).1 = false ↔ k = 0 := by
  unfold ThreadCache.fetch_from_central
  by_cases hk0 : k = 0
  · simp [hk0]
  · simp [hk0]

/-- A successful refill of `k` objects leaves `k - 1` more objects on the
class list. -/
theorem fetch_from_central_length (tc : ThreadCache) (cls k : Nat) (hk : k ≠ 0) :
    ((tc.fetch_from_central cls k).2.lists cls).length =
      (tc.lists cls).length + (k - 1) := by
  unfold ThreadCache.fetch_from_central
  simp only [if_neg hk]
  by_cases hrem : k - 1 > 0
  · simp [hrem, Function.update_same]
    split
    · simp [Function.update_same]
    · simp [Function.update_same]
  · simp [hrem, Function.update_same]
    split
    · simp [Function.update_same]
      omega
    · omega

/-- A successful refill of `k` objects raises `max_length` to at least `k`. -/
theorem fetch_from_central_max_length (tc : ThreadCache) (cls k : Nat) (hk : k ≠ 0) :
    k ≤ ((tc.fetch_from_central cls k).2.lists cls).max_length := by
  unfold ThreadCache.fetch_from_central
  simp only [if_neg hk]
  by_cases hrem : k - 1 > 0
  · simp [hrem, Function.update_same]
    split
    · simp [Function.update_same]
    · simp [Function.update_same]
      omega
  · simp [hrem, Function.update_same]
    split
    · simp [Function.update_same]
    · omega

/-- A successful refill of `k` objects adds `(k - 1) * size` bytes to the
total counter. -/
theorem fetch_from_central_total (tc : ThreadCache) (cls k : Nat) (hk : k ≠ 0) :
    (tc.fetch_from_central cls k).2.total_size =
      tc.total_size + (k - 1) * (class_info cls).size := by
  unfold ThreadCache.fetch_from_central
  simp only [if_neg hk]
  by_cases hrem : k - 1 > 0
  · simp [hrem]
    split
    · simp
    · simp
  · have hz : k - 1 = 0 := by omega
    simp [hrem, hz]
    split
    · simp
    · rfl

/-- A refill leaves every other class's list untouched. -/
theorem fetch_from_central_other (tc : ThreadCache) (cls k j : Nat) (hj : j ≠ cls) :
    (tc.fetch_from_central cls k).2.lists j = tc.lists j := by
  unfold ThreadCache.fetch_from_central
  by_cases hk0 : k = 0
  · simp [hk0]
  · simp only [if_neg hk0]
    by_cases hrem : k - 1 > 0
    · simp [hrem]
      split
      · simp [Function.update_noteq hj]
      · simp [Function.update_noteq hj]
    · simp [hrem]
      split
      · simp [Function.update_noteq hj]
      · rfl

/-- A refill does not change the cap. -/
theorem fetch_from_central_max_size (tc : ThreadCache) (cls k : Nat) :
    (tc.fetch_from_central cls k).2.max_size = tc.max_size := by
  unfold ThreadCache.fetch_from_central
  by_cases hk0 : k = 0
  · simp [hk0]
  · simp only [if_neg hk0]
    by_cases hrem : k - 1 > 0
    · simp [hrem]
      split
      · simp
      · simp
    · simp [hrem]
      split
      · simp
      · rfl

-- =============================================================================
-- Claim C6
-- =============================================================================

/-- C6: when a thread-cache `allocate` for class `cls` misses (empty list)
and the refill obtains `k` objects from the central cache (`k` at most the
class's `batch_size`), the result is null exactly when `k = 0`; for `k > 0`
the first object is returned to the caller, the remaining `k - 1` sit on the
class list (whose bytes are added to the total counter), and `max_length`
has been raised to at least `k`. -/
theorem C6_refill_miss (tc : ThreadCache) (cls k : Nat)
    (_hk : k ≤ (class_info cls).batch_size)
    (hmiss : (tc.lists cls).length = 0) :
    ((tc.allocate cls k).1 = false ↔ k = 0) ∧
    (1 ≤ k →
      (tc.allocate cls k).1 = true ∧
      ((tc.allocate cls k).2.lists cls).length = k - 1 ∧
      k ≤ ((tc.allocate cls k).2.lists cls).max_length ∧
      (tc.allocate cls k).2.total_size =
        tc.total_size + (k - 1) * (class_info cls).size) := by
  have halloc : tc.allocate cls k = tc.fetch_from_central cls k := by
    unfold ThreadCache.allocate
    rw [if_neg (by omega)]
  rw [halloc]
  refine ⟨fetch_from_central_false_iff tc cls k, fun hk1 => ?_⟩
  refine ⟨?_, ?_, ?_, ?_⟩
  · rcases hb : (tc.fetch_from_central cls k).1 with _ | _
    · exact absurd ((fetch_from_central_false_iff tc cls k).1 hb) (by omega)
    · rfl
  · rw [fetch_from_central_length tc cls k (by omega), hmiss]
    omega
  · exact fetch_from_central_max_length tc cls k (by omega)
  · exact fetch_from_central_total tc cls k (by omega)

/-- Witness for C6: a fresh thread cache refilling class 1 with a full batch
of 32 objects. -/
theorem C6_refill_miss_witness :
    ((ThreadCache.new.allocate 1 32).1 = false ↔ 32 = 0) ∧
    (1 ≤ 32 →
      (ThreadCache.new.allocate 1 32).1 = true ∧
      ((ThreadCache.new.allocate 1 32).2.lists 1).length = 31 ∧
      32 ≤ ((ThreadCache.new.allocate 1 32).2.lists 1).max_length ∧
      (ThreadCache.new.allocate 1 32).2.total_size =
        ThreadCache.new.total_size + 31 * (class_info 1).size) :=
  C6_refill_miss ThreadCache.new 1 32 (by decide) (by decide)

-- =============================================================================
-- Byte-accounting lemmas
-- =============================================================================

/-- Split the accounting sum at a class `cls` in range. -/
theorem listSum_split (f : Nat → FreeList) (cls : Nat) (h1 : 1 ≤ cls) (h2 : cls ≤ 45) :
    ∑ i ∈ Finset.Icc 1 45, (f i).length * class_to_size i
      = (f cls).length * class_to_size cls +
        ∑ i ∈ (Finset.Icc 1 45).erase cls, (f i).length * class_to_size i :=
  (Finset.add_sum_erase _ _ (Finset.mem_Icc.2 ⟨h1, h2⟩)).symm

/-- The accounting invariant transfers along any state change that touches a
single class list and moves the matching number of bytes on the counter. -/
theorem sizeInv_shift (tc tc' : ThreadCache) (cls : Nat) (h1 : 1 ≤ cls) (h2 : cls ≤ 45)
    (hother : ∀ j, j ≠ cls → tc'.lists j = tc.lists j)
    (hbal : (tc'.total_size : Int) - tc.total_size =
      ((tc'.lists cls).length : Int) * class_to_size cls -
      ((tc.lists cls).length : Int) * class_to_size cls)
    (hInv : tc.sizeInv) : tc'.sizeInv := by
  unfold ThreadCache.sizeInv at hInv ⊢
  rw [listSum_split tc'.lists cls h1 h2]
  rw [listSum_split tc.lists cls h1 h2] at hInv
  have hR : ∑ i ∈ (Finset.Icc 1 45).erase cls, (tc'.lists i).length * class_to_size i
      = ∑ i ∈ (Finset.Icc 1 45).erase cls, (tc.lists i).length * class_to_size i :=
    Finset.sum_congr rfl (fun i hi => by rw [hother i (Finset.ne_of_mem_erase hi)])
  rw [hR]
  zify at hInv ⊢
  omega

/-- A thread-cache pop keeps the cap and the other lists, shortens the class
list by one and debits one object's bytes. -/
theorem allocate_pop (tc : ThreadCache) (cls k : Nat) (hpop : (tc.lists cls).length > 0) :
    tc.allocate cls k =
      (true,
       { tc with
         lists := Function.update tc.lists cls
           { tc.lists cls with length := (tc.lists cls).length - 1 },
         total_size := tc.total_size - class_to_size cls }) := by
  unfold ThreadCache.allocate
  rw [if_pos hpop]

/-- On a miss, `allocate` is exactly `fetch_from_central`. -/
theorem allocate_miss (tc : ThreadCache) (cls k : Nat)
    (hmiss : ¬ (tc.lists cls).length > 0) :
    tc.allocate cls k = tc.fetch_from_central cls k := by
  unfold ThreadCache.allocate
  rw [if_neg hmiss]

/-- Effect of `release_to_central` on the counters: the cap and the other
lists are unchanged, the class list keeps `length - length / 2` objects and
the released `length / 2` objects' bytes are debited. -/
theorem release_to_central_spec (tc : ThreadCache) (cls : Nat) :
    (tc.release_to_central cls).max_size = tc.max_size ∧
    (∀ j, j ≠ cls → (tc.release_to_central cls).lists j = tc.lists j) ∧
    ((tc.release_to_central cls).lists cls).length =
      (tc.lists cls).length - (tc.lists cls).length / 2 ∧
    (tc.release_to_central cls).total_size =
      tc.total_size - ((tc.lists cls).length / 2) * (class_info cls).size := by
  unfold ThreadCache.release_to_central
  by_cases h0 : (tc.lists cls).length / 2 = 0
  · rw [if_pos h0]
    exact ⟨rfl, fun j hj => rfl, by omega, by simp [h0]⟩
  · rw [if_neg h0]
    have hmin : pop_batch_count (tc.lists cls) ((tc.lists cls).length / 2)
        = (tc.lists cls).length / 2 := Nat.min_eq_left (Nat.div_le_self _ _)
    refine ⟨rfl, fun j hj => by simp [Function.update_noteq hj], ?_, ?_⟩
    · simp [Function.update_same, hmin]
    · simp [hmin]

/-- Effect of one scavenge sweep step on the counters: the cap is unchanged;
below the target the step does nothing; above the target it halves the class
list and debits the released bytes. -/
theorem scavenge_step_spec (tc : ThreadCache) (cls : Nat) :
    (tc.scavenge_step cls).max_size = tc.max_size ∧
    (tc.total_size ≤ tc.max_size / 2 → tc.scavenge_step cls = tc) ∧
    (tc.max_size / 2 < tc.total_size →
      (∀ j, j ≠ cls → (tc.scavenge_step cls).lists j = tc.lists j) ∧
      ((tc.scavenge_step cls).lists cls).length =
        (tc.lists cls).length - (tc.lists cls).length / 2 ∧
      (tc.scavenge_step cls).total_size =
        tc.total_size - ((tc.lists cls).length / 2) * (class_info cls).size) := by
  unfold ThreadCache.scavenge_step
  by_cases hdone : tc.total_size ≤ tc.max_size / 2
  · rw [if_pos hdone]
    exact ⟨rfl, fun _ => rfl, fun hlt => by omega⟩
  · rw [if_neg hdone]
    refine ⟨?_, fun hle => absurd hle hdone, fun _ => ?_⟩
    · by_cases hlen : (tc.lists cls).length = 0
      · rw [if_pos hlen]
      · rw [if_neg hlen]
        by_cases h0 : (tc.lists cls).length / 2 = 0
        · rw [if_pos h0]
        · rw [if_neg h0]
    · by_cases hlen : (tc.lists cls).length = 0
      · rw [if_pos hlen]
        exact ⟨fun j hj => rfl, by omega, by simp [hlen]⟩
      · rw [if_neg hlen]
        by_cases h0 : (tc.lists cls).length / 2 = 0
        · rw [if_pos h0]
          exact ⟨fun j hj => rfl, by omega, by simp [h0]⟩
        · rw [if_neg h0]
          have hmin : pop_batch_count (tc.lists cls) ((tc.lists cls).length / 2)
              = (tc.lists cls).length / 2 := Nat.min_eq_left (Nat.div_le_self _ _)
          refine ⟨fun j hj => by simp [Function.update_noteq hj], ?_, ?_⟩
          · simp [Function.update_same, hmin]
          · simp [hmin]

/-- Halving a class list and debiting the released bytes preserves the
accounting invariant. -/
theorem sizeInv_halve (tc tc' : ThreadCache) (cls : Nat) (h1 : 1 ≤ cls) (h2 : cls ≤ 45)
    (hother : ∀ j, j ≠ cls → tc'.lists j = tc.lists j)
    (hlen : (tc'.lists cls).length =
      (tc.lists cls).length - (tc.lists cls).length / 2)
    (htot : tc'.total_size =
      tc.total_size - ((tc.lists cls).length / 2) * (class_info cls).size)
    (hInv : tc.sizeInv) : tc'.sizeInv := by
  refine sizeInv_shift tc tc' cls h1 h2 hother ?_ hInv
  rw [hlen, htot]
  have hsz : (class_info cls).size = class_to_size cls := rfl
  rw [hsz]
  have hle1 : (tc.lists cls).length / 2 ≤ (tc.lists cls).length := Nat.div_le_self _ _
  have hle2 : ((tc.lists cls).length / 2) * class_to_size cls ≤ tc.total_size := by
    unfold ThreadCache.sizeInv at hInv
    have hs := listSum_split tc.lists cls h1 h2
    have hmul : ((tc.lists cls).length / 2) * class_to_size cls ≤
        (tc.lists cls).length * class_to_size cls := Nat.mul_le_mul_right _ hle1
    omega
  rw [Nat.cast_sub hle2, Nat.cast_sub hle1]
  push_cast
  ring

/-- `fetch_from_central` preserves the accounting invariant. -/
theorem sizeInv_fetch_from_central (tc : ThreadCache) (cls k : Nat)
    (h1 : 1 ≤ cls) (h2 : cls ≤ 45) (hInv : tc.sizeInv) :
    (tc.fetch_from_central cls k).2.sizeInv := by
  by_cases hk0 : k = 0
  · have hid : tc.fetch_from_central cls k = (false, tc) := by
      unfold ThreadCache.fetch_from_central
      rw [if_pos hk0]
    rw [hid]
    exact hInv
  · refine sizeInv_shift tc _ cls h1 h2
      (fun j hj => fetch_from_central_other tc cls k j hj) ?_ hInv
    rw [fetch_from_central_length tc cls k hk0, fetch_from_central_total tc cls k hk0]
    have hsz : (class_info cls).size = class_to_size cls := rfl
    rw [hsz]
    push_cast
    ring

/-- `allocate` preserves the accounting invariant. -/
theorem sizeInv_allocate (tc : ThreadCache) (cls k : Nat)
    (h1 : 1 ≤ cls) (h2 : cls ≤ 45) (hInv : tc.sizeInv) :
    (tc.allocate cls k).2.sizeInv := by
  by_cases hpop : (tc.lists cls).length > 0
  · rw [allocate_pop tc cls k hpop]
    refine sizeInv_shift tc _ cls h1 h2
      (fun j hj => by simp [Function.update_noteq hj]) ?_ hInv
    have hsz_le : class_to_size cls ≤ tc.total_size := by
      unfold ThreadCache.sizeInv at hInv
      have hs := listSum_split tc.lists cls h1 h2
      have hle : class_to_size cls ≤ (tc.lists cls).length * class_to_size cls :=
        Nat.le_mul_of_pos_left _ hpop
      omega
    simp only [Function.update_same]
    rw [Nat.cast_sub hsz_le, Nat.cast_sub hpop]
    push_cast
    ring
  · rw [allocate_miss tc cls k hpop]
    exact sizeInv_fetch_from_central tc cls k h1 h2 hInv

/-- `release_to_central` preserves the accounting invariant. -/
theorem sizeInv_release_to_central (tc : ThreadCache) (cls : Nat)
    (h1 : 1 ≤ cls) (h2 : cls ≤ 45) (hInv : tc.sizeInv) :
    (tc.release_to_central cls).sizeInv := by
  obtain ⟨hmax, hother, hlen, htot⟩ := release_to_central_spec tc cls
  exact sizeInv_halve tc _ cls h1 h2 hother hlen htot hInv

/-- One scavenge step preserves the accounting invariant. -/
theorem sizeInv_scavenge_step (tc : ThreadCache) (cls : Nat)
    (h1 : 1 ≤ cls) (h2 : cls ≤ 45) (hInv : tc.sizeInv) :
    (tc.scavenge_step cls).sizeInv := by
  obtain ⟨hmax, hskip, hact⟩ := scavenge_step_spec tc cls
  by_cases hdone : tc.total_size ≤ tc.max_size / 2
  · rw [hskip hdone]
    exact hInv
  · obtain ⟨hother, hlen, htot⟩ := hact (by omega)
    exact sizeInv_halve tc _ cls h1 h2 hother hlen htot hInv

/-- The scavenge sweep preserves the accounting invariant. -/
theorem sizeInv_scavenge_fold : ∀ (l : List Nat) (tc : ThreadCache),
    (∀ c ∈ l, 1 ≤ c ∧ c ≤ 45) → tc.sizeInv →
    (l.foldl ThreadCache.scavenge_step tc).sizeInv := by
  intro l
  induction l with
  | nil => exact fun tc _ hInv => hInv
  | cons c cs ih =>
    intro tc hmem hInv
    rw [List.foldl_cons]
    have hc := hmem c (List.mem_cons_self c cs)
    exact ih _ (fun x hx => hmem x (List.mem_cons_of_mem c hx))
      (sizeInv_scavenge_step tc c hc.1 hc.2 hInv)

/-- `scavenge` preserves the accounting invariant. -/
theorem sizeInv_scavenge (tc : ThreadCache) (hInv : tc.sizeInv) :
    tc.scavenge.sizeInv := by
  unfold ThreadCache.scavenge
  refine sizeInv_scavenge_fold _ tc (fun c hc => ?_) hInv
  have h45 : NUM_SIZE_CLASSES - 1 = 45 := rfl
  rw [h45] at hc
  have := List.mem_range'_1.1 hc
  omega

/-- `deallocate_inner` (push plus overflow release) preserves the accounting
invariant. -/
theorem sizeInv_deallocate_inner (tc : ThreadCache) (cls : Nat)
    (h1 : 1 ≤ cls) (h2 : cls ≤ 45) (hInv : tc.sizeInv) :
    (tc.deallocate_inner cls).sizeInv := by
  have hInv1 : ThreadCache.sizeInv
      { tc with
        lists := Function.update tc.lists cls
          { tc.lists cls with length := (tc.lists cls).length + 1 },
        total_size := tc.total_size + class_to_size cls } := by
    refine sizeInv_shift tc _ cls h1 h2
      (fun j hj => by simp [Function.update_noteq hj]) ?_ hInv
    simp only [Function.update_same]
    push_cast
    ring
  have hgen : ∀ t : ThreadCache, t.sizeInv →
      ThreadCache.sizeInv
        (if (t.lists cls).length > (t.lists cls).max_length
         then t.release_to_central cls else t) := by
    intro t ht
    by_cases hc : (t.lists cls).length > (t.lists cls).max_length
    · rw [if_pos hc]
      exact sizeInv_release_to_central t cls h1 h2 ht
    · rw [if_neg hc]
      exact ht
  unfold ThreadCache.deallocate_inner
  exact hgen _ hInv1

/-- `deallocate` preserves the accounting invariant. -/
theorem sizeInv_deallocate (tc : ThreadCache) (cls : Nat)
    (h1 : 1 ≤ cls) (h2 : cls ≤ 45) (hInv : tc.sizeInv) :
    (tc.deallocate cls).sizeInv := by
  unfold ThreadCache.deallocate
  have hInv2 := sizeInv_deallocate_inner tc cls h1 h2 hInv
  by_cases hc : (tc.deallocate_inner cls).total_size > (tc.deallocate_inner cls).max_size
  · rw [if_pos hc]
    exact sizeInv_scavenge _ hInv2
  · rw [if_neg hc]
    exact hInv2

-- =============================================================================
-- Claim C10
-- =============================================================================

/-- C10: the thread cache's `total_size` always equals the sum over the size
classes of list length times object size, and this accounting invariant is
preserved by every `ThreadCache` operation — `allocate`, `deallocate`,
`fetch_from_central`, `release_to_central` and `scavenge` — for any class in
`1..=45` and any central-cache reply `k`. -/
theorem C10_accounting_invariant (tc : ThreadCache) (cls k : Nat)
    (h1 : 1 ≤ cls) (h2 : cls ≤ 45) (hInv : tc.sizeInv) :
    (tc.allocate cls k).2.sizeInv ∧
    (tc.deallocate cls).sizeInv ∧
    (tc.fetch_from_central cls k).2.sizeInv ∧
    (tc.release_to_central cls).sizeInv ∧
    tc.scavenge.sizeInv :=
  ⟨sizeInv_allocate tc cls k h1 h2 hInv,
   sizeInv_deallocate tc cls h1 h2 hInv,
   sizeInv_fetch_from_central tc cls k h1 h2 hInv,
   sizeInv_release_to_central tc cls h1 h2 hInv,
   sizeInv_scavenge tc hInv⟩

/-- Witness for C10 on a fresh thread cache, class 4, a refill reply of 5. -/
theorem C10_accounting_invariant_witness :
    (ThreadCache.new.allocate 4 5).2.sizeInv ∧
    (ThreadCache.new.deallocate 4).sizeInv ∧
    (ThreadCache.new.fetch_from_central 4 5).2.sizeInv ∧
    (ThreadCache.new.release_to_central 4).sizeInv ∧
    ThreadCache.new.scavenge.sizeInv :=
  C10_accounting_invariant ThreadCache.new 4 5 (by decide) (by decide)
    (by unfold ThreadCache.sizeInv; simp [ThreadCache.new])

-- =============================================================================
-- Scavenge sweep lemmas
-- =============================================================================

/-- A scavenge step leaves every other class's list untouched. -/
theorem scavenge_step_other (tc : ThreadCache) (c j : Nat) (hj : j ≠ c) :
    (tc.scavenge_step c).lists j = tc.lists j := by
  unfold ThreadCache.scavenge_step
  by_cases hd : tc.total_size ≤ tc.max_size / 2
  · rw [if_pos hd]
  · rw [if_neg hd]
    by_cases h2 : (tc.lists c).length = 0
    · rw [if_pos h2]
    · rw [if_neg h2]
      by_cases h3 : (tc.lists c).length / 2 = 0
      · rw [if_pos h3]
      · rw [if_neg h3]
        simp [Function.update_noteq hj]

/-- The scavenge sweep never changes the cap. -/
theorem scavenge_fold_max_size : ∀ (l : List Nat) (tc : ThreadCache),
    (l.foldl ThreadCache.scavenge_step tc).max_size = tc.max_size := by
  intro l
  induction l with
  | nil => exact fun tc => rfl
  | cons c cs ih =>
    intro tc
    rw [List.foldl_cons, ih, (scavenge_step_spec tc c).1]

/-- The scavenge sweep leaves classes outside the swept list untouched. -/
theorem scavenge_fold_other : ∀ (l : List Nat) (tc : ThreadCache) (j : Nat),
    (∀ c ∈ l, c ≠ j) →
    ((l.foldl ThreadCache.scavenge_step tc).lists j) = tc.lists j := by
  intro l
  induction l with
  | nil => exact fun tc j _ => rfl
  | cons c cs ih =>
    intro tc j hne
    rw [List.foldl_cons, ih _ j (fun x hx => hne x (List.mem_cons_of_mem c hx)),
      scavenge_step_other tc c j (fun h => hne c (List.mem_cons_self c cs) h.symm)]

/-- At or below the target the scavenge sweep is the identity. -/
theorem scavenge_fold_done : ∀ (l : List Nat) (tc : ThreadCache),
    tc.total_size ≤ tc.max_size / 2 →
    l.foldl ThreadCache.scavenge_step tc = tc := by
  intro l
  induction l with
  | nil => exact fun tc _ => rfl
  | cons c cs ih =>
    intro tc hdone
    rw [List.foldl_cons, (scavenge_step_spec tc c).2.1 hdone, ih tc hdone]

/-- Specification of the scavenge sweep over any class interval: either the
final total is at or below the entry state's target, or every swept class's
list was halved (kept `length - length / 2` objects). -/
theorem scavenge_fold_spec : ∀ (n s : Nat) (tc : ThreadCache),
    ((List.range' s n).foldl ThreadCache.scavenge_step tc).total_size ≤
      tc.max_size / 2 ∨
    ∀ i, s ≤ i → i < s + n →
      (((List.range' s n).foldl ThreadCache.scavenge_step tc).lists i).length =
        (tc.lists i).length - (tc.lists i).length / 2 := by
  intro n
  induction n with
  | zero =>
    intro s tc
    right
    intro i hi1 hi2
    omega
  | succ m ih =>
    intro s tc
    rw [List.range'_succ, List.foldl_cons]
    by_cases hdone : tc.total_size ≤ tc.max_size / 2
    · left
      rw [(scavenge_step_spec tc s).2.1 hdone, scavenge_fold_done _ tc hdone]
      exact hdone
    · obtain ⟨hother, hlen, htot⟩ := (scavenge_step_spec tc s).2.2 (by omega)
      have hmax : (tc.scavenge_step s).max_size = tc.max_size := (scavenge_step_spec tc s).1
      rcases ih (s + 1) (tc.scavenge_step s) with hle | hall
      · left
        rw [hmax] at hle
        exact hle
      · right
        intro i hi1 hi2
        by_cases his : i = s
        · subst his
          have hnotin : ∀ c ∈ List.range' (i + 1) m, c ≠ i := by
            intro c hc _
            have := List.mem_range'_1.1 hc
            omega
          rw [scavenge_fold_other _ _ i (fun c hc => hnotin c hc), hlen]
        · rw [hall i (by omega) (by omega), hother i his]

/-- `deallocate_inner` never changes the cap. -/
theorem deallocate_inner_max_size (tc : ThreadCache) (cls : Nat) :
    (tc.deallocate_inner cls).max_size = tc.max_size := by
  have hgen : ∀ t : ThreadCache,
      (if (t.lists cls).length > (t.lists cls).max_length
       then t.release_to_central cls else t).max_size = t.max_size := by
    intro t
    by_cases hc : (t.lists cls).length > (t.lists cls).max_length
    · rw [if_pos hc]
      exact (release_to_central_spec t cls).1
    · rw [if_neg hc]
  unfold ThreadCache.deallocate_inner
  exact (hgen _).trans rfl

-- =============================================================================
-- Claim C5
-- =============================================================================

set_option maxRecDepth 4096 in
/-- C5 counterexample: on a cache holding sixteen class-45 objects (exactly
4 MiB), a seventeenth class-45 deallocation pushes the total to 4456448 >
max_size, scavenge runs — but it releases only half of the single non-empty
list (8 of 17 objects) and returns with `total_size = 2359296`, which is
above `max_size / 2 = 2097152`: the counter has *not* fallen to at most
`max_size / 2`. -/
theorem C5_counterexample :
    (scavengeShortfallState.deallocate_inner 45).total_size >
      (scavengeShortfallState.deallocate_inner 45).max_size ∧
    (scavengeShortfallState.deallocate 45).total_size = 2359296 ∧
    scavengeShortfallState.max_size / 2 = 2097152 ∧
    ¬ ((scavengeShortfallState.deallocate 45).total_size ≤
        scavengeShortfallState.max_size / 2) := by decide

/-- C5 amended: whenever a thread-cache deallocate pushes the total-byte
counter above `max_size`, `scavenge` runs; it sweeps classes 1..45 in order,
releasing half of each non-empty list, and stops once the total is at most
`max_size / 2` — so on return either the counter is at most `max_size / 2`,
or the sweep exhausted all classes with every list halved (each class keeps
`length - length / 2` objects) and the counter may remain above the target. -/
theorem C5_scavenge_amended (tc : ThreadCache) (cls : Nat)
    (htrig : (tc.deallocate_inner cls).max_size < (tc.deallocate_inner cls).total_size) :
    tc.deallocate cls = (tc.deallocate_inner cls).scavenge ∧
    ((tc.deallocate cls).total_size ≤ tc.max_size / 2 ∨
      ∀ i, 1 ≤ i → i ≤ 45 →
        ((tc.deallocate cls).lists i).length =
          ((tc.deallocate_inner cls).lists i).length -
            ((tc.deallocate_inner cls).lists i).length / 2) := by
  have heq : tc.deallocate cls = (tc.deallocate_inner cls).scavenge := by
    unfold ThreadCache.deallocate
    rw [if_pos htrig]
  refine ⟨heq, ?_⟩
  rw [heq]
  unfold ThreadCache.scavenge
  have h45 : NUM_SIZE_CLASSES - 1 = 45 := rfl
  rw [h45]
  have hmax_inner : (tc.deallocate_inner cls).max_size = tc.max_size :=
    deallocate_inner_max_size tc cls
  rcases scavenge_fold_spec 45 1 (tc.deallocate_inner cls) with hle | hall
  · left
    rw [hmax_inner] at hle
    exact hle
  · right
    intro i hi1 hi2
    exact hall i hi1 (by omega)

/-- Witness for C5 amended on the shortfall state: the trigger fires and the
sweep halves the class-45 list. -/
theorem C5_scavenge_amended_witness :
    scavengeShortfallState.deallocate 45 =
      (scavengeShortfallState.deallocate_inner 45).scavenge ∧
    ((scavengeShortfallState.deallocate 45).total_size ≤
        scavengeShortfallState.max_size / 2 ∨
      ∀ i, 1 ≤ i → i ≤ 45 →
        ((scavengeShortfallState.deallocate 45).lists i).length =
          ((scavengeShortfallState.deallocate_inner 45).lists i).length -
            ((scavengeShortfallState.deallocate_inner 45).lists i).length / 2) :=
  C5_scavenge_amended scavengeShortfallState 45 (by decide)
